import Mathlib

/-!
Shallow embedding of the seed-hypothesis search of
`seed_analysis_code.py` (class `RugsTimeSeedAnalyzer`) and of the record
loaders, together with theorems checking the natural-language
specification against this code.

The hash primitives (`hashlib.md5` / `hashlib.sha1` / `hashlib.sha256`)
and the datetime library are external collaborators of the program, so
they are embedded as parameters: a `HashFns` bundle of digest functions
and a `PyDateTime` record of the components that `datetime.datetime`
exposes (the `strftime` paddings themselves are embedded).
-/

namespace SeedAnalysis

/-- Components of a parsed `datetime.datetime`, as used by the script:
the numeric fields read by `strftime`, plus the values of
`int(dt.timestamp())` and `int(dt.timestamp() * 1000)`. -/
structure PyDateTime where
  year : Nat
  month : Nat
  day : Nat
  hour : Nat
  minute : Nat
  second : Nat
  microsecond : Nat
  epoch : Int
  epochMs : Int
deriving DecidableEq

/-- One collected game record; only the three fields the seed search
reads.  Each field is optional, mirroring `'field' in game` checks on
the JSON dictionaries. -/
structure GameRecord where
  gameId : Option String
  timestamp : Option PyDateTime
  serverSeed : Option String
deriving DecidableEq

/-- The three digest functions the script takes from `hashlib`; each
maps an input string to its hex digest. -/
structure HashFns where
  md5 : String → String
  sha1 : String → String
  sha256 : String → String

/-- The real `hashlib` hex digests have fixed lengths: 32 hex characters
for MD5, 40 for SHA-1, 64 for SHA-256. -/
def StdDigestLengths (hf : HashFns) : Prop :=
  ∀ s, (hf.md5 s).length = 32 ∧ (hf.sha1 s).length = 40 ∧ (hf.sha256 s).length = 64

/-- A salt template: the Python source uses `str.format` patterns such
as `"{}_salt"`; each pattern is a prefix/suffix pair around the secret. -/
structure SaltFormat where
  pre : String
  post : String
deriving DecidableEq

/-- Instantiation of a salt template at a secret, `salt_format.format(secret)`. -/
def SaltFormat.fmt (sf : SaltFormat) (secret : String) : String :=
  sf.pre ++ secret ++ sf.post

/-- The `common_secrets` table of `brute_force_seed_generation`. -/
def commonSecrets : List String :=
  ["rugs.fun", "rugsfun", "rug", "rugpull",
   "crypto", "game", "seed", "random",
   "bitcoin", "ethereum", "secret", "provably-fair"]

/-- The `salt_formats` table of `brute_force_seed_generation`. -/
def saltFormats : List SaltFormat :=
  [⟨"", ""⟩, ⟨"", "_salt"⟩, ⟨"salt_", ""⟩, ⟨"", "_key"⟩,
   ⟨"key_", ""⟩, ⟨"", "_seed"⟩, ⟨"seed_", ""⟩]

/-- Zero padding to two digits, as `strftime` does for `%m`, `%d`,
`%H`, `%M`, `%S`. -/
def pad2 (n : Nat) : String :=
  if n < 10 then "0" ++ toString n else toString n

/-- Zero padding to four digits, as `strftime` does for `%Y`. -/
def pad4 (n : Nat) : String :=
  if n < 10 then "000" ++ toString n
  else if n < 100 then "00" ++ toString n
  else if n < 1000 then "0" ++ toString n
  else toString n

/-- The `dt.strftime('%Y%m%d')` encoding. -/
def fmtDate (dt : PyDateTime) : String :=
  pad4 dt.year ++ pad2 dt.month ++ pad2 dt.day

/-- The `dt.strftime('%H%M%S')` encoding. -/
def fmtTimeOfDay (dt : PyDateTime) : String :=
  pad2 dt.hour ++ pad2 dt.minute ++ pad2 dt.second

/-- The `time_formats` dictionary built inside `run_quick_analysis` for
one record, in insertion order.  The final `game_id` entry reads the
loop variable `game` left over from the extraction loop, which at that
point is the LAST record of the sample, so it is passed in as
`staleId`. -/
def timeFormats (dt : PyDateTime) (staleId : String) : List (String × String) :=
  [("epoch", toString dt.epoch),
   ("epoch_ms", toString dt.epochMs),
   ("date", fmtDate dt),
   ("time", fmtTimeOfDay dt),
   ("datetime", fmtDate dt ++ fmtTimeOfDay dt),
   ("year", pad4 dt.year),
   ("month", pad2 dt.month),
   ("day", pad2 dt.day),
   ("hour", pad2 dt.hour),
   ("minute", pad2 dt.minute),
   ("second", pad2 dt.second),
   ("microsecond", toString dt.microsecond),
   ("game_id", staleId)]

/-- One entry of `found_patterns`: the dictionary appended on a match. -/
structure FoundPattern where
  index : Nat
  seed : String
  timeFormat : String
  secret : String
  saltFormat : SaltFormat
  input : String
  hashType : String
  matchType : String
deriving DecidableEq

/-- The grouping key used for validation:
`(time_format, secret, salt_format, hash_type, match_type)`. -/
structure PatternKey where
  timeFormat : String
  secret : String
  saltFormat : SaltFormat
  hashType : String
  matchType : String
deriving DecidableEq

/-- Key extraction from a found pattern. -/
def FoundPattern.key (p : FoundPattern) : PatternKey :=
  ⟨p.timeFormat, p.secret, p.saltFormat, p.hashType, p.matchType⟩

/-- The `if`/`elif` comparison chain of `run_quick_analysis` applied to
one candidate input: the digest comparisons are tried in the fixed order
md5 exact, sha1 exact, sha256 exact, md5 first-16, sha1 first-16,
sha256 first-16, and the FIRST one that holds decides the recorded
`(hash_type, match_type)`; `none` when no comparison holds. -/
def firstMatch (hf : HashFns) (seed input : String) : Option (String × String) :=
  if seed = hf.md5 input then some ("md5", "exact")
  else if seed = hf.sha1 input then some ("sha1", "exact")
  else if seed = hf.sha256 input then some ("sha256", "exact")
  else if seed.startsWith ((hf.md5 input).take 16) then some ("md5", "partial_16")
  else if seed.startsWith ((hf.sha1 input).take 16) then some ("sha1", "partial_16")
  else if seed.startsWith ((hf.sha256 input).take 16) then some ("sha256", "partial_16")
  else none

/-- Patterns appended for one `test_input`: a singleton for the first
matching comparison of the `elif` chain, empty otherwise. -/
def checkInput (hf : HashFns) (i : Nat) (seed tk secret : String)
    (sf : SaltFormat) (input : String) : List FoundPattern :=
  match firstMatch hf seed input with
  | some pr => [⟨i, seed, tk, secret, sf, input, pr.1, pr.2⟩]
  | none => []

/-- The `test_inputs` list for one combination:
`[time_val + salt, salt + time_val, time_val, salt]`. -/
def testInputs (tv salt : String) : List String :=
  [tv ++ salt, salt ++ tv, tv, salt]

/-- Candidate generation for one record of the sample: the nested loops
over time encodings (skipping empty values), secrets, salt templates and
input orderings. -/
def genForRecord (hf : HashFns) (staleId : String) (i : Nat)
    (dt : PyDateTime) (seed : String) : List FoundPattern :=
  (timeFormats dt staleId).flatMap (fun tf =>
    if tf.2 = "" then []
    else commonSecrets.flatMap (fun secret =>
      saltFormats.flatMap (fun sf =>
        (testInputs tf.2 (sf.fmt secret)).flatMap (fun input =>
          checkInput hf i seed tf.1 secret sf input))))

/-- Extraction of `(timestamp, serverSeed)` pairs from the sample:
the `zip(timestamps, seeds)` of the two lists collected from records
that have both fields. -/
def extractTS (sample : List GameRecord) : List (PyDateTime × String) :=
  sample.filterMap (fun g =>
    match g.timestamp, g.serverSeed with
    | some dt, some seed => some (dt, seed)
    | _, _ => none)

/-- The value the stale loop variable `game` holds when the pattern loop
runs: the last record of the sample (its `gameId`, or `''` if absent). -/
def staleGameId (sample : List GameRecord) : String :=
  match sample.getLast? with
  | some g => g.gameId.getD ""
  | none => ""

/-- The `enumerate(zip(timestamps, seeds))` loop: generation over the
extracted pairs with their indices. -/
def genAll (hf : HashFns) (staleId : String) :
    Nat → List (PyDateTime × String) → List FoundPattern
  | _, [] => []
  | i, pr :: rest => genForRecord hf staleId i pr.1 pr.2 ++ genAll hf staleId (i + 1) rest

/-- The generation sample `self.games[:sample_size]`. -/
def sampleSlice (games : List GameRecord) (n : Nat) : List GameRecord :=
  games.take n

/-- The validation slice `self.games[sample_size:sample_size+100]`. -/
def validationSlice (games : List GameRecord) (n : Nat) : List GameRecord :=
  (games.drop n).take 100

/-- Candidate generation of `run_quick_analysis`: the `found_patterns`
list produced from the sample. -/
def generateCandidates (hf : HashFns) (games : List GameRecord) (n : Nat) :
    List FoundPattern :=
  genAll hf (staleGameId (sampleSlice games n)) 0 (extractTS (sampleSlice games n))

/-- Bool test for `needle in hay` on character lists. -/
def substrIn (needle : List Char) : List Char → Bool
  | [] => needle.isEmpty
  | c :: rest => needle.isPrefixOf (c :: rest) || substrIn needle rest

/-- Python's substring containment `needle in hay`. -/
def strHasSubstr (needle hay : String) : Bool :=
  substrIn needle.toList hay.toList

/-- Dispatch on `hash_type` in the validation loop; `none` models the
`hash_value = None` left by an unknown type. -/
def valHash (hf : HashFns) (t s : String) : Option String :=
  if t = "md5" then some (hf.md5 s)
  else if t = "sha1" then some (hf.sha1 s)
  else if t = "sha256" then some (hf.sha256 s)
  else none

/-- The `if time_format == ...` dispatch of the validation loop; the
fall-through (`time_val = None`) is modelled by `""`, which takes the
same `continue` branch. -/
def valTimeVal (tf : String) (dt : PyDateTime) (g : GameRecord) : String :=
  if tf = "epoch" then toString dt.epoch
  else if tf = "epoch_ms" then toString dt.epochMs
  else if tf = "date" then fmtDate dt
  else if tf = "time" then fmtTimeOfDay dt
  else if tf = "datetime" then fmtDate dt ++ fmtTimeOfDay dt
  else if tf = "year" then pad4 dt.year
  else if tf = "month" then pad2 dt.month
  else if tf = "day" then pad2 dt.day
  else if tf = "hour" then pad2 dt.hour
  else if tf = "minute" then pad2 dt.minute
  else if tf = "second" then pad2 dt.second
  else if tf = "microsecond" then toString dt.microsecond
  else if tf = "game_id" then g.gameId.getD ""
  else ""

/-- The salt recomputed once per group, `salt_format.format(secret)`. -/
def groupSalt (k : PatternKey) : String :=
  k.saltFormat.fmt k.secret

/-- One iteration of the inner `for pattern in patterns` loop of the
validator: the input ordering is re-derived from the STORED input string
by searching for the literal markers `'TimeSecret'` / `'SecretTime'`
(which in the generator were only comments, never part of the string)
or comparing the stored input with the time-format NAME, falling through
to the salt-only input; then the digest and match kind are re-checked. -/
def valMatch (hf : HashFns) (k : PatternKey) (tv seed : String)
    (p : FoundPattern) : Bool :=
  let salt := groupSalt k
  let testInput :=
    if strHasSubstr "TimeSecret" p.input then tv ++ salt
    else if strHasSubstr "SecretTime" p.input then salt ++ tv
    else if p.input = p.timeFormat then tv
    else salt
  match valHash hf k.hashType testInput with
  | some h =>
    if k.matchType = "exact" then seed == h
    else if k.matchType = "partial_16" then seed.startsWith (h.take 16)
    else false
  | none => false

/-- Does a validation record get counted into `total`: both
`'timestamp' in game and 'serverSeed' in game`. -/
def vPresent (g : GameRecord) : Bool :=
  g.timestamp.isSome && g.serverSeed.isSome

/-- Does a validation record get counted into `matches` for a group:
both fields present, a non-empty re-derived time value, and some pattern
of the group passing its re-check (the loop `break`s at the first). -/
def vMatched (hf : HashFns) (k : PatternKey) (ps : List FoundPattern)
    (g : GameRecord) : Bool :=
  match g.timestamp, g.serverSeed with
  | some dt, some seed =>
    let tv := valTimeVal k.timeFormat dt g
    if tv = "" then false
    else ps.any (fun p => valMatch hf k tv seed p)
  | _, _ => false

/-- One iteration of the validation loop over a validation record,
threading the `(matches, total)` counters. -/
def valStep (hf : HashFns) (k : PatternKey) (ps : List FoundPattern)
    (acc : Nat × Nat) (g : GameRecord) : Nat × Nat :=
  match g.timestamp, g.serverSeed with
  | some dt, some seed =>
    let t := acc.2 + 1
    let tv := valTimeVal k.timeFormat dt g
    if tv = "" then (acc.1, t)
    else if ps.any (fun p => valMatch hf k tv seed p) then (acc.1 + 1, t)
    else (acc.1, t)
  | _, _ => acc

/-- The per-group validation result dictionary
`{'matches': m, 'total': t, 'success_rate': m / t if t > 0 else 0}`. -/
structure ValidationResult where
  matchCount : Nat
  total : Nat
  successRate : Rat
deriving DecidableEq

/-- Construction of the result dictionary from the two counters. -/
def mkValidationResult (m t : Nat) : ValidationResult :=
  ⟨m, t, if 0 < t then (m : Rat) / (t : Rat) else 0⟩

/-- Validation of one pattern group over the validation games. -/
def validateGroup (hf : HashFns) (k : PatternKey) (ps : List FoundPattern)
    (vg : List GameRecord) : ValidationResult :=
  let mt := vg.foldl (valStep hf k ps) (0, 0)
  mkValidationResult mt.1 mt.2

/-- Insertion-ordered distinct keys of `pattern_groups`. -/
def groupKeys (ps : List FoundPattern) : List PatternKey :=
  ps.foldl (fun acc p => if p.key ∈ acc then acc else acc ++ [p.key]) []

/-- The member list of one group, in append order. -/
def groupMembers (ps : List FoundPattern) (k : PatternKey) : List FoundPattern :=
  ps.filter (fun p => p.key == k)

/-- The `validation_results` dictionary of `run_quick_analysis`. -/
def runValidation (hf : HashFns) (games : List GameRecord) (n : Nat)
    (ps : List FoundPattern) : List (PatternKey × ValidationResult) :=
  (groupKeys ps).map (fun k =>
    (k, validateGroup hf k (groupMembers ps k) (validationSlice games n)))

/-- Whole `run_quick_analysis`: `none` models the early return when
fewer than 10 games are collected; otherwise the found patterns, with
the validation results when patterns were found and games remain. -/
def runQuickAnalysis (hf : HashFns) (games : List GameRecord) (n : Nat) :
    Option (List FoundPattern × List (PatternKey × ValidationResult)) :=
  if games.length < 10 then none
  else
    let ps := generateCandidates hf games n
    if ps ≠ [] ∧ n < games.length then some (ps, runValidation hf games n ps)
    else some (ps, [])

/-- Record loading of `analysis_tools.load_collected_data`: each line is
parsed inside its own `try`, a parse failure skips just that line. -/
def loadCollectedData {α : Type} (parse : String → Option α) :
    List String → List α
  | [] => []
  | l :: ls =>
    match parse l with
    | some g => g :: loadCollectedData parse ls
    | none => loadCollectedData parse ls

/-- Record loading of `seed_analysis_code.load_data` (JSONL branch): the
whole line loop sits inside one `try`, so the first unparsable line
raises out of the loop; records appended before it are kept and the
function returns `False` (here the Bool component). -/
def loadData {α : Type} (parse : String → Option α) :
    List String → List α × Bool
  | [] => ([], true)
  | l :: ls =>
    match parse l with
    | none => ([], false)
    | some g =>
      let r := loadData parse ls
      (g :: r.1, r.2)

/-- The four input orderings of the `test_inputs` list, named as in the
source comments. -/
inductive InputOrdering where
  | timeSalt
  | saltTime
  | timeOnly
  | saltOnly
deriving DecidableEq

/-- Builds the candidate input for an ordering. -/
def applyOrdering : InputOrdering → String → String → String
  | .timeSalt, tv, salt => tv ++ salt
  | .saltTime, tv, salt => salt ++ tv
  | .timeOnly, tv, _ => tv
  | .saltOnly, _, salt => salt

/-- Modelled from the spec: the hold-out validator is required to
"recompute, for every record and every hypothesis, whether the same
match condition holds" — the hypothesis's own time encoding, secret,
salt template, input ordering (passed explicitly, since the source
stores only the concatenated input string), hash algorithm and match
kind, applied to a validation record.  This definition follows the
spec's words and is compared against the source's `valMatch`. -/
def specMatchCondition (hf : HashFns) (ord : InputOrdering) (p : FoundPattern)
    (g : GameRecord) : Bool :=
  match g.timestamp, g.serverSeed with
  | some dt, some seed =>
    let salt := p.saltFormat.fmt p.secret
    let tv := valTimeVal p.timeFormat dt g
    if tv = "" then false
    else
      match valHash hf p.hashType (applyOrdering ord tv salt) with
      | some h =>
        if p.matchType = "exact" then seed == h
        else if p.matchType = "partial_16" then seed.startsWith (h.take 16)
        else false
      | none => false
  | _, _ => false

/-!
Concrete instances used to exercise the theorems: a fixed parsed
timestamp, several hash-function bundles, and small game records.
-/

/-- A concrete parsed timestamp, 2024-01-01T00:00:00. -/
def dtW : PyDateTime := ⟨2024, 1, 1, 0, 0, 0, 0, 1700000000, 1700000000000⟩

/-- A 32-character string, the length of an MD5 hex digest. -/
def s32 : String := String.mk (List.replicate 32 'a')

/-- A 40-character string, the length of a SHA-1 hex digest. -/
def s40 : String := String.mk (List.replicate 40 'b')

/-- A 64-character string, the length of a SHA-256 hex digest. -/
def s64 : String := String.mk (List.replicate 64 'c')

/-- Constant digest functions with the standard digest lengths. -/
def hfLen : HashFns := ⟨fun _ => s32, fun _ => s40, fun _ => s64⟩

/-- Identity digest functions. -/
def hfId : HashFns := ⟨fun s => s, fun s => s, fun s => s⟩

/-- Digest functions that always collide on the value `"zz"`. -/
def hfConst : HashFns := ⟨fun _ => "zz", fun _ => "zz", fun _ => "zz"⟩

/-- Injective marker digest functions: each algorithm prepends its own
tag to the input. -/
def hfMark : HashFns := ⟨fun s => "h" ++ s, fun s => "i" ++ s, fun s => "j" ++ s⟩

/-- The identity salt template `"{}"`. -/
def sfPlain : SaltFormat := ⟨"", ""⟩

/-- The salt template `"{}_salt"`. -/
def sfSalt : SaltFormat := ⟨"", "_salt"⟩

/-- A complete record whose seed has SHA-256 digest length. -/
def gW : GameRecord := ⟨some "20240101-ab", some dtW, some s64⟩

/-- A second complete record. -/
def gW2 : GameRecord := ⟨some "20240101-cd", some dtW, some s64⟩

/-- A record with NO `gameId` but with timestamp and seed; its seed is
the epoch-seconds string. -/
def gI : GameRecord := ⟨none, some dtW, some "1700000000"⟩

/-- A record whose seed is the colliding digest value of `hfConst`. -/
def gZ : GameRecord := ⟨some "20240101-ff", some dtW, some "zz"⟩

/-- A record with a timestamp but no revealed seed. -/
def gNoSeed : GameRecord := ⟨some "20240101-aa", some dtW, none⟩

/-- A record whose seed equals
`hfMark.md5 ("20240101" ++ "rugs.fun_salt")`, i.e. constructed with the
time-plus-salt ordering. -/
def gX : GameRecord := ⟨some "20240101-ee", some dtW, some "h20240101rugs.fun_salt"⟩

/-- The hypothesis candidate generation finds on `gX`. -/
def pX : FoundPattern :=
  ⟨0, "h20240101rugs.fun_salt", "date", "rugs.fun", sfSalt,
   "20240101rugs.fun_salt", "md5", "exact"⟩

/-- The grouping key of `pX`. -/
def keyX : PatternKey := ⟨"date", "rugs.fun", sfSalt, "md5", "exact"⟩

/-- A validation record satisfying `pX`'s own match condition. -/
def gV : GameRecord := ⟨some "20240101-gg", some dtW, some "h20240101rugs.fun_salt"⟩

/-- A grouping key whose time encoding is the `game_id` field. -/
def kG : PatternKey := ⟨"game_id", "rugs.fun", sfSalt, "md5", "exact"⟩

/-- A line parser for the loader theorems: every line except `"bad"`
parses to itself. -/
def parseDemo (s : String) : Option String :=
  if s = "bad" then none else some s

end SeedAnalysis

namespace SeedAnalysis

/-!
Helper lemmas about the embedded definitions.
-/

lemma mem_checkInput_iff (hf : HashFns) (i : Nat) (seed tk secret : String)
    (sf : SaltFormat) (input : String) (p : FoundPattern) :
    p ∈ checkInput hf i seed tk secret sf input ↔
      ∃ pr, firstMatch hf seed input = some pr ∧
        p = ⟨i, seed, tk, secret, sf, input, pr.1, pr.2⟩ := by
  unfold checkInput
  cases h : firstMatch hf seed input with
  | none => simp
  | some pr => simp

lemma firstMatch_md5 (hf : HashFns) {seed input : String}
    (h : seed = hf.md5 input) :
    firstMatch hf seed input = some ("md5", "exact") := by
  unfold firstMatch
  rw [if_pos h]

lemma firstMatch_sha1 (hf : HashFns) {seed input : String}
    (h0 : seed ≠ hf.md5 input) (h : seed = hf.sha1 input) :
    firstMatch hf seed input = some ("sha1", "exact") := by
  unfold firstMatch
  rw [if_neg h0, if_pos h]

lemma firstMatch_sha256 (hf : HashFns) {seed input : String}
    (h0 : seed ≠ hf.md5 input) (h1 : seed ≠ hf.sha1 input)
    (h : seed = hf.sha256 input) :
    firstMatch hf seed input = some ("sha256", "exact") := by
  unfold firstMatch
  rw [if_neg h0, if_neg h1, if_pos h]

lemma genAll_cons (hf : HashFns) (sid : String) (start : Nat)
    (pr : PyDateTime × String) (rest : List (PyDateTime × String)) :
    genAll hf sid start (pr :: rest) =
      genForRecord hf sid start pr.1 pr.2 ++ genAll hf sid (start + 1) rest := rfl

lemma mem_genAll_of_get (hf : HashFns) (sid : String) :
    ∀ (prs : List (PyDateTime × String)) (start i : Nat)
      (pr : PyDateTime × String) (p : FoundPattern),
      prs[i]? = some pr → p ∈ genForRecord hf sid (start + i) pr.1 pr.2 →
      p ∈ genAll hf sid start prs := by
  intro prs
  induction prs with
  | nil => intro start i pr p h _; simp at h
  | cons hd tl ih =>
    intro start i pr p h hp
    rw [genAll_cons]
    cases i with
    | zero =>
      have hhd : hd = pr := by simpa using h
      subst hhd
      exact List.mem_append.mpr (Or.inl (by simpa using hp))
    | succ j =>
      have h' : tl[j]? = some pr := by simpa using h
      have hp' : p ∈ genForRecord hf sid ((start + 1) + j) pr.1 pr.2 := by
        have harith : start + (j + 1) = (start + 1) + j := by omega
        rwa [harith] at hp
      exact List.mem_append.mpr (Or.inr (ih (start + 1) j pr p h' hp'))

lemma mem_genAll_elim (hf : HashFns) (sid : String) :
    ∀ (prs : List (PyDateTime × String)) (start : Nat) (p : FoundPattern),
      p ∈ genAll hf sid start prs →
      ∃ i pr, prs[i]? = some pr ∧ p ∈ genForRecord hf sid (start + i) pr.1 pr.2 := by
  intro prs
  induction prs with
  | nil => intro start p h; simp [genAll] at h
  | cons hd tl ih =>
    intro start p h
    rw [genAll_cons] at h
    rcases List.mem_append.mp h with h1 | h2
    · exact ⟨0, hd, by simp, by simpa using h1⟩
    · rcases ih (start + 1) p h2 with ⟨j, pr, hj, hp⟩
      refine ⟨j + 1, pr, by simpa using hj, ?_⟩
      have harith : start + (j + 1) = (start + 1) + j := by omega
      rwa [harith]

lemma mem_genForRecord_intro (hf : HashFns) (sid : String) (i : Nat)
    (dt : PyDateTime) (seed : String) (tf : String × String) (secret : String)
    (sf : SaltFormat) (input : String) (p : FoundPattern)
    (htf : tf ∈ timeFormats dt sid) (hne : tf.2 ≠ "")
    (hsec : secret ∈ commonSecrets) (hsf : sf ∈ saltFormats)
    (hin : input ∈ testInputs tf.2 (sf.fmt secret))
    (hchk : p ∈ checkInput hf i seed tf.1 secret sf input) :
    p ∈ genForRecord hf sid i dt seed := by
  unfold genForRecord
  refine List.mem_flatMap.mpr ⟨tf, htf, ?_⟩
  rw [if_neg hne]
  refine List.mem_flatMap.mpr ⟨secret, hsec, ?_⟩
  refine List.mem_flatMap.mpr ⟨sf, hsf, ?_⟩
  exact List.mem_flatMap.mpr ⟨input, hin, hchk⟩

lemma mem_genForRecord_elim (hf : HashFns) (sid : String) (i : Nat)
    (dt : PyDateTime) (seed : String) (p : FoundPattern)
    (h : p ∈ genForRecord hf sid i dt seed) :
    ∃ tf secret sf input,
      tf ∈ timeFormats dt sid ∧ tf.2 ≠ "" ∧ secret ∈ commonSecrets ∧
      sf ∈ saltFormats ∧ input ∈ testInputs tf.2 (sf.fmt secret) ∧
      p ∈ checkInput hf i seed tf.1 secret sf input := by
  unfold genForRecord at h
  rcases List.mem_flatMap.mp h with ⟨tf, htf, h⟩
  by_cases hne : tf.2 = ""
  · rw [if_pos hne] at h
    cases h
  · rw [if_neg hne] at h
    rcases List.mem_flatMap.mp h with ⟨secret, hsec, h⟩
    rcases List.mem_flatMap.mp h with ⟨sf, hsf, h⟩
    rcases List.mem_flatMap.mp h with ⟨input, hin, h⟩
    exact ⟨tf, secret, sf, input, htf, hne, hsec, hsf, hin, h⟩

lemma mem_generateCandidates_intro (hf : HashFns) (games : List GameRecord)
    (n i : Nat) (ts : PyDateTime) (seed : String) (tf : String × String)
    (secret : String) (sf : SaltFormat) (input : String) (p : FoundPattern)
    (hget : (extractTS (sampleSlice games n))[i]? = some (ts, seed))
    (htf : tf ∈ timeFormats ts (staleGameId (sampleSlice games n)))
    (hne : tf.2 ≠ "") (hsec : secret ∈ commonSecrets) (hsf : sf ∈ saltFormats)
    (hin : input ∈ testInputs tf.2 (sf.fmt secret))
    (hchk : p ∈ checkInput hf i seed tf.1 secret sf input) :
    p ∈ generateCandidates hf games n := by
  unfold generateCandidates
  refine mem_genAll_of_get hf _ _ 0 i (ts, seed) p hget ?_
  rw [Nat.zero_add]
  exact mem_genForRecord_intro hf _ i ts seed tf secret sf input p
    htf hne hsec hsf hin hchk

lemma mem_generateCandidates_elim (hf : HashFns) (games : List GameRecord)
    (n : Nat) (p : FoundPattern)
    (h : p ∈ generateCandidates hf games n) :
    ∃ i ts seed tf secret sf input,
      (extractTS (sampleSlice games n))[i]? = some (ts, seed) ∧
      tf ∈ timeFormats ts (staleGameId (sampleSlice games n)) ∧ tf.2 ≠ "" ∧
      secret ∈ commonSecrets ∧ sf ∈ saltFormats ∧
      input ∈ testInputs tf.2 (sf.fmt secret) ∧
      p ∈ checkInput hf i seed tf.1 secret sf input := by
  unfold generateCandidates at h
  rcases mem_genAll_elim hf _ _ 0 p h with ⟨i, pr, hget, hp⟩
  rw [Nat.zero_add] at hp
  rcases mem_genForRecord_elim hf _ i pr.1 pr.2 p hp with
    ⟨tf, secret, sf, input, htf, hne, hsec, hsf, hin, hchk⟩
  exact ⟨i, pr.1, pr.2, tf, secret, sf, input, by simpa using hget,
    htf, hne, hsec, hsf, hin, hchk⟩

lemma timeFormats_keys (dt : PyDateTime) (sid : String) :
    (timeFormats dt sid).map Prod.fst =
      ["epoch", "epoch_ms", "date", "time", "datetime", "year", "month",
       "day", "hour", "minute", "second", "microsecond", "game_id"] := rfl

lemma timeFormats_keys_nodup (dt : PyDateTime) (sid : String) :
    ((timeFormats dt sid).map Prod.fst).Nodup := by
  rw [timeFormats_keys]
  decide

lemma fst_nodup_val_eq :
    ∀ (l : List (String × String)), (l.map Prod.fst).Nodup →
      ∀ (k a b : String), (k, a) ∈ l → (k, b) ∈ l → a = b := by
  intro l
  induction l with
  | nil => intro _ k a b ha _; cases ha
  | cons hd tl ih =>
    intro hnd k a b ha hb
    rw [List.map_cons, List.nodup_cons] at hnd
    rcases List.mem_cons.mp ha with ha1 | ha2
    · rcases List.mem_cons.mp hb with hb1 | hb2
      · rw [← ha1] at hb1
        exact ((Prod.mk.injEq k b k a).mp hb1).2.symm
      · exfalso
        apply hnd.1
        have hk : hd.1 = k := by rw [← ha1]
        rw [hk]
        exact List.mem_map_of_mem Prod.fst hb2
    · rcases List.mem_cons.mp hb with hb1 | hb2
      · exfalso
        apply hnd.1
        have hk : hd.1 = k := by rw [← hb1]
        rw [hk]
        exact List.mem_map_of_mem Prod.fst ha2
      · exact ih hnd.2 k a b ha2 hb2

lemma valStep_spec (hf : HashFns) (k : PatternKey) (ps : List FoundPattern)
    (acc : Nat × Nat) (g : GameRecord) :
    valStep hf k ps acc g =
      (acc.1 + (if vMatched hf k ps g then 1 else 0),
       acc.2 + (if vPresent g then 1 else 0)) := by
  unfold valStep vMatched vPresent
  cases hts : g.timestamp with
  | none => simp [hts]
  | some dt =>
    cases hss : g.serverSeed with
    | none => simp [hts, hss]
    | some seed =>
      by_cases htv : valTimeVal k.timeFormat dt g = ""
      · simp [hts, hss, htv]
      · by_cases hany :
          ps.any (fun p => valMatch hf k (valTimeVal k.timeFormat dt g) seed p) = true
        · simp [hts, hss, htv, hany]
        · simp [hts, hss, htv, hany]

lemma valFold (hf : HashFns) (k : PatternKey) (ps : List FoundPattern) :
    ∀ (vg : List GameRecord) (m t : Nat),
      vg.foldl (valStep hf k ps) (m, t) =
        (m + vg.countP (vMatched hf k ps), t + vg.countP vPresent) := by
  intro vg
  induction vg with
  | nil => intro m t; simp
  | cons g rest ih =>
    intro m t
    rw [List.foldl_cons, valStep_spec, ih, List.countP_cons, List.countP_cons]
    by_cases h1 : vMatched hf k ps g = true <;>
      by_cases h2 : vPresent g = true <;>
      simp [h1, h2] <;> omega

lemma checkInput_hfConst (i : Nat) (tk secret : String) (sf : SaltFormat)
    (input : String) :
    checkInput hfConst i "zz" tk secret sf input =
      [⟨i, "zz", tk, secret, sf, input, "md5", "exact"⟩] := by
  unfold checkInput
  have h : firstMatch hfConst "zz" input = some ("md5", "exact") :=
    firstMatch_md5 hfConst (show "zz" = hfConst.md5 input from rfl)
  rw [h]

lemma generate_hfConst_md5 (p : FoundPattern)
    (hp : p ∈ generateCandidates hfConst [gZ] 1) : p.hashType = "md5" := by
  rcases mem_generateCandidates_elim hfConst [gZ] 1 p hp with
    ⟨i, ts, seed, tf, secret, sf, input, hget, _, _, _, _, _, hchk⟩
  have hex : extractTS (sampleSlice [gZ] 1) = [(dtW, "zz")] := rfl
  rw [hex] at hget
  have hseed : seed = "zz" := by
    cases i with
    | zero =>
      simp at hget
      exact hget.2.symm
    | succ j => simp at hget
  subst hseed
  rw [checkInput_hfConst, List.mem_singleton] at hchk
  rw [hchk]

lemma validateGroup_spec (hf : HashFns) (k : PatternKey)
    (ps : List FoundPattern) (vg : List GameRecord) :
    validateGroup hf k ps vg =
      mkValidationResult (vg.countP (vMatched hf k ps)) (vg.countP vPresent) := by
  unfold validateGroup
  rw [valFold]
  simp

/-!
Claim theorems.
-/

/-- Claim C1: if a record of the generation sample has both fields and
its observed seed equals the hex digest of `hash(encode(timestamp) + salt)`
for a time encoding with non-empty value, a secret, a salt template and a
hash algorithm drawn from the enumerated tables (the digest functions
having the standard `hashlib` hex lengths), then candidate generation
surfaces the hypothesis with exactly that time encoding, secret, salt
template and hash algorithm, with match kind exact. -/
theorem c1_positive_control_surfaced (hf : HashFns) (games : List GameRecord)
    (n i : Nat) (ts : PyDateTime) (seed : String) (tf : String × String)
    (secret : String) (sf : SaltFormat) (ht : String)
    (hlen : StdDigestLengths hf)
    (hget : (extractTS (sampleSlice games n))[i]? = some (ts, seed))
    (htf : tf ∈ timeFormats ts (staleGameId (sampleSlice games n)))
    (hne : tf.2 ≠ "")
    (hsec : secret ∈ commonSecrets) (hsf : sf ∈ saltFormats)
    (hht : ht = "md5" ∨ ht = "sha1" ∨ ht = "sha256")
    (hseed : valHash hf ht (tf.2 ++ sf.fmt secret) = some seed) :
    (⟨i, seed, tf.1, secret, sf, tf.2 ++ sf.fmt secret, ht, "exact"⟩ : FoundPattern)
      ∈ generateCandidates hf games n := by
  apply mem_generateCandidates_intro hf games n i ts seed tf secret sf
    (tf.2 ++ sf.fmt secret) _ hget htf hne hsec hsf
  · unfold testInputs
    exact List.mem_cons_self _ _
  · rw [mem_checkInput_iff]
    refine ⟨(ht, "exact"), ?_, rfl⟩
    have hlm := (hlen (tf.2 ++ sf.fmt secret)).1
    have hls1 := (hlen (tf.2 ++ sf.fmt secret)).2.1
    have hls2 := (hlen (tf.2 ++ sf.fmt secret)).2.2
    rcases hht with h | h | h <;> subst h
    · have hs : seed = hf.md5 (tf.2 ++ sf.fmt secret) := by
        simp [valHash] at hseed
        exact hseed.symm
      exact firstMatch_md5 hf hs
    · have hs : seed = hf.sha1 (tf.2 ++ sf.fmt secret) := by
        simp [valHash] at hseed
        exact hseed.symm
      have hn0 : seed ≠ hf.md5 (tf.2 ++ sf.fmt secret) := by
        intro heq
        have e1 : seed.length = 32 := by rw [heq, hlm]
        have e2 : seed.length = 40 := by rw [hs, hls1]
        omega
      exact firstMatch_sha1 hf hn0 hs
    · have hs : seed = hf.sha256 (tf.2 ++ sf.fmt secret) := by
        simp [valHash] at hseed
        exact hseed.symm
      have hn0 : seed ≠ hf.md5 (tf.2 ++ sf.fmt secret) := by
        intro heq
        have e1 : seed.length = 32 := by rw [heq, hlm]
        have e2 : seed.length = 64 := by rw [hs, hls2]
        omega
      have hn1 : seed ≠ hf.sha1 (tf.2 ++ sf.fmt secret) := by
        intro heq
        have e1 : seed.length = 40 := by rw [heq, hls1]
        have e2 : seed.length = 64 := by rw [hs, hls2]
        omega
      exact firstMatch_sha256 hf hn0 hn1 hs

/-- Witness for C1: a record whose seed is
`sha256("20240101" + "rugs.fun_salt")` produces the expected exact
hypothesis. -/
theorem c1_positive_control_surfaced_witness :
    (extractTS (sampleSlice [gW] 1))[0]? = some (dtW, s64) ∧
    ("date", "20240101") ∈ timeFormats dtW (staleGameId (sampleSlice [gW] 1)) ∧
    "rugs.fun" ∈ commonSecrets ∧ sfSalt ∈ saltFormats ∧
    valHash hfLen "sha256" ("20240101" ++ sfSalt.fmt "rugs.fun") = some s64 ∧
    (⟨0, s64, "date", "rugs.fun", sfSalt, "20240101" ++ sfSalt.fmt "rugs.fun",
      "sha256", "exact"⟩ : FoundPattern) ∈ generateCandidates hfLen [gW] 1 := by
  refine ⟨by decide, by decide, by decide, by decide, by decide, ?_⟩
  exact c1_positive_control_surfaced hfLen [gW] 1 0 dtW s64 ("date", "20240101")
    "rugs.fun" sfSalt "sha256" (fun s => ⟨rfl, rfl, rfl⟩)
    (by decide) (by decide) (by decide) (by decide) (by decide)
    (Or.inr (Or.inr rfl)) (by decide)

/-- Claim C8: candidate generation is a deterministic pure function of
its record sample and the fixed enumeration tables: two games lists that
agree on the sampled prefix yield the identical hypothesis list, so
re-running on the same sample cannot change the result. -/
theorem c8_generation_deterministic (hf : HashFns)
    (games1 games2 : List GameRecord) (n : Nat)
    (h : sampleSlice games1 n = sampleSlice games2 n) :
    generateCandidates hf games1 n = generateCandidates hf games2 n := by
  unfold generateCandidates
  rw [h]

/-- Witness for C8 at two concrete games lists sharing the sample. -/
theorem c8_generation_deterministic_witness :
    sampleSlice [gW, gW2] 1 = sampleSlice [gW] 1 ∧
    generateCandidates hfLen [gW, gW2] 1 = generateCandidates hfLen [gW] 1 :=
  ⟨rfl, c8_generation_deterministic hfLen [gW, gW2] [gW] 1 rfl⟩

/-- Claim C6: the generation sample `games[:n]` and the validation slice
`games[n:n+100]` are disjoint: the sample holds the records at original
positions `i < n`, the validation slice those at positions `n + j`, and
no original index lies in both. -/
theorem c6_slices_disjoint (games : List GameRecord) (n i j : Nat)
    (hi : i < (sampleSlice games n).length)
    (hj : j < (validationSlice games n).length) :
    (sampleSlice games n)[i]? = games[i]? ∧
    (validationSlice games n)[j]? = games[n + j]? ∧ i ≠ n + j := by
  have hin : i < n := by
    unfold sampleSlice at hi
    rw [List.length_take] at hi
    exact hi.trans_le (min_le_left _ _)
  refine ⟨?_, ?_, by omega⟩
  · unfold sampleSlice
    rw [List.getElem?_take, if_pos hin]
  · have hj100 : j < 100 := by
      unfold validationSlice at hj
      rw [List.length_take] at hj
      exact hj.trans_le (min_le_left _ _)
    unfold validationSlice
    rw [List.getElem?_take, if_pos hj100, List.getElem?_drop]

/-- Witness for C6 at a two-record games list with sample size 1. -/
theorem c6_slices_disjoint_witness :
    (sampleSlice [gW, gW2] 1)[0]? = [gW, gW2][0]? ∧
    (validationSlice [gW, gW2] 1)[0]? = [gW, gW2][1 + 0]? ∧ 0 ≠ 1 + 0 :=
  c6_slices_disjoint [gW, gW2] 1 0 0 (by decide) (by decide)

/-- Claim C7 counterexample: the record `gI` has NO `gameId` yet still
participates in the hashing search — it enters the pool and even yields
a hypothesis — because the source only checks `timestamp` and
`serverSeed`. -/
theorem c7_counterexample :
    gI.gameId = none ∧ gI.timestamp.isSome = true ∧ gI.serverSeed.isSome = true ∧
    (⟨0, "1700000000", "epoch", "rugs.fun", sfPlain, "1700000000",
      "md5", "exact"⟩ : FoundPattern) ∈ generateCandidates hfId [gI] 1 := by
  refine ⟨rfl, rfl, rfl, ?_⟩
  apply mem_generateCandidates_intro hfId [gI] 1 0 dtW "1700000000"
    ("epoch", "1700000000") "rugs.fun" sfPlain "1700000000" _
    (by decide) (by decide) (by decide) (by decide) (by decide) (by decide)
  rw [mem_checkInput_iff]
  exact ⟨("md5", "exact"), by decide, rfl⟩

/-- Claim C7 (amended): a pair of values enters the hashing pool iff some
record of the generation sample carries BOTH `timestamp` and `serverSeed`
with those values; `gameId` is not required. -/
theorem c7_pool_characterization (games : List GameRecord) (n : Nat)
    (ts : PyDateTime) (seed : String) :
    (ts, seed) ∈ extractTS (sampleSlice games n) ↔
      ∃ g ∈ sampleSlice games n,
        g.timestamp = some ts ∧ g.serverSeed = some seed := by
  unfold extractTS
  rw [List.mem_filterMap]
  constructor
  · rintro ⟨g, hg, hparse⟩
    refine ⟨g, hg, ?_⟩
    cases hts : g.timestamp with
    | none => simp [hts] at hparse
    | some dt =>
      cases hss : g.serverSeed with
      | none => simp [hts, hss] at hparse
      | some sd =>
        simp [hts, hss] at hparse
        exact ⟨by rw [hparse.1], by rw [hparse.2]⟩
  · rintro ⟨g, hg, hts, hss⟩
    exact ⟨g, hg, by rw [hts, hss]⟩

/-- Claim C2 counterexample: with digest functions that collide on the
observed seed, the sha1 exact comparison matches for a tested
combination, yet NO hypothesis with hash type sha1 is recorded — the
`elif` chain records only the first matching comparison (here md5
exact). -/
theorem c2_counterexample :
    hfConst.sha1 ("1700000000" ++ sfPlain.fmt "rugs.fun") = "zz" ∧
    (extractTS (sampleSlice [gZ] 1))[0]? = some (dtW, "zz") ∧
    ("epoch", "1700000000") ∈ timeFormats dtW (staleGameId (sampleSlice [gZ] 1)) ∧
    "rugs.fun" ∈ commonSecrets ∧ sfPlain ∈ saltFormats ∧
    ("1700000000" ++ sfPlain.fmt "rugs.fun")
      ∈ testInputs "1700000000" (sfPlain.fmt "rugs.fun") ∧
    (generateCandidates hfConst [gZ] 1).all
      (fun p => !(p.hashType == "sha1" && p.matchType == "exact")) = true := by
  refine ⟨rfl, by decide, by decide, by decide, by decide, by decide, ?_⟩
  rw [List.all_eq_true]
  intro p hp
  have h := generate_hfConst_md5 p hp
  simp [h]

/-- Claim C2 (amended): for each enumerated combination and candidate
input the six comparisons are tried in the fixed order md5 exact, sha1
exact, sha256 exact, md5 prefix-16, sha1 prefix-16, sha256 prefix-16, and
exactly the FIRST matching one is recorded as the hypothesis (so at most
one hypothesis arises per record, combination and input); every recorded
hypothesis carries the hash type and match kind of that first match, and
the kind is exact precisely when one of the three full-digest equalities
holds. -/
theorem c2_first_match_recorded (hf : HashFns) (games : List GameRecord)
    (n i : Nat) (ts : PyDateTime) (seed : String) (tf : String × String)
    (secret : String) (sf : SaltFormat) (input : String)
    (hget : (extractTS (sampleSlice games n))[i]? = some (ts, seed))
    (htf : tf ∈ timeFormats ts (staleGameId (sampleSlice games n)))
    (hne : tf.2 ≠ "")
    (hsec : secret ∈ commonSecrets) (hsf : sf ∈ saltFormats)
    (hin : input ∈ testInputs tf.2 (sf.fmt secret)) :
    (∀ pr, firstMatch hf seed input = some pr →
      (⟨i, seed, tf.1, secret, sf, input, pr.1, pr.2⟩ : FoundPattern)
        ∈ generateCandidates hf games n) ∧
    (∀ p, p ∈ generateCandidates hf games n →
      firstMatch hf p.seed p.input = some (p.hashType, p.matchType)) ∧
    (∀ pr, firstMatch hf seed input = some pr →
      (pr.2 = "exact" ↔
        (seed = hf.md5 input ∨ seed = hf.sha1 input ∨ seed = hf.sha256 input))) := by
  refine ⟨?_, ?_, ?_⟩
  · intro pr hpr
    apply mem_generateCandidates_intro hf games n i ts seed tf secret sf input _
      hget htf hne hsec hsf hin
    rw [mem_checkInput_iff]
    exact ⟨pr, hpr, rfl⟩
  · intro p hp
    rcases mem_generateCandidates_elim hf games n p hp with
      ⟨i', ts', seed', tf', secret', sf', input', _, _, _, _, _, _, hchk⟩
    rcases (mem_checkInput_iff hf i' seed' tf'.1 secret' sf' input' p).mp hchk with
      ⟨pr, hfm, hpe⟩
    subst hpe
    exact hfm
  · intro pr hpr
    unfold firstMatch at hpr
    by_cases h1 : seed = hf.md5 input
    · rw [if_pos h1] at hpr
      have hpe := Option.some.inj hpr
      rw [← hpe]
      exact ⟨fun _ => Or.inl h1, fun _ => rfl⟩
    · rw [if_neg h1] at hpr
      by_cases h2 : seed = hf.sha1 input
      · rw [if_pos h2] at hpr
        have hpe := Option.some.inj hpr
        rw [← hpe]
        exact ⟨fun _ => Or.inr (Or.inl h2), fun _ => rfl⟩
      · rw [if_neg h2] at hpr
        by_cases h3 : seed = hf.sha256 input
        · rw [if_pos h3] at hpr
          have hpe := Option.some.inj hpr
          rw [← hpe]
          exact ⟨fun _ => Or.inr (Or.inr h3), fun _ => rfl⟩
        · rw [if_neg h3] at hpr
          have hnall : ¬(seed = hf.md5 input ∨ seed = hf.sha1 input ∨
              seed = hf.sha256 input) := by
            intro hor
            rcases hor with h | h | h
            · exact h1 h
            · exact h2 h
            · exact h3 h
          by_cases h4 : seed.startsWith ((hf.md5 input).take 16)
          · rw [if_pos h4] at hpr
            have hpe := Option.some.inj hpr
            rw [← hpe]
            exact ⟨fun hx => absurd hx (by decide), fun hx => absurd hx hnall⟩
          · rw [if_neg h4] at hpr
            by_cases h5 : seed.startsWith ((hf.sha1 input).take 16)
            · rw [if_pos h5] at hpr
              have hpe := Option.some.inj hpr
              rw [← hpe]
              exact ⟨fun hx => absurd hx (by decide), fun hx => absurd hx hnall⟩
            · rw [if_neg h5] at hpr
              by_cases h6 : seed.startsWith ((hf.sha256 input).take 16)
              · rw [if_pos h6] at hpr
                have hpe := Option.some.inj hpr
                rw [← hpe]
                exact ⟨fun hx => absurd hx (by decide), fun hx => absurd hx hnall⟩
              · rw [if_neg h6] at hpr
                cases hpr

/-- Witness for C2 (amended) at a concrete record and combination whose
first matching comparison is the sha256 exact one. -/
theorem c2_first_match_recorded_witness :
    firstMatch hfLen s64 ("20240101" ++ sfSalt.fmt "rugs.fun") =
      some ("sha256", "exact") ∧
    (⟨0, s64, "date", "rugs.fun", sfSalt, "20240101" ++ sfSalt.fmt "rugs.fun",
      "sha256", "exact"⟩ : FoundPattern) ∈ generateCandidates hfLen [gW] 1 := by
  have h := c2_first_match_recorded hfLen [gW] 1 0 dtW s64 ("date", "20240101")
    "rugs.fun" sfSalt ("20240101" ++ sfSalt.fmt "rugs.fun")
    (by decide) (by decide) (by decide) (by decide) (by decide) (by decide)
  have hfm : firstMatch hfLen s64 ("20240101" ++ sfSalt.fmt "rugs.fun") =
      some ("sha256", "exact") := by decide
  exact ⟨hfm, h.1 ("sha256", "exact") hfm⟩

/-- Claim C5: a time encoding whose value for a record is the empty
string is skipped entirely — no hypothesis of that record carries its
key — while every other enumerated combination of the same record is
still processed and records its first matching comparison. -/
theorem c5_empty_encoding_skipped (hf : HashFns) (games : List GameRecord)
    (n i : Nat) (ts : PyDateTime) (seed : String) (tk : String)
    (hget : (extractTS (sampleSlice games n))[i]? = some (ts, seed))
    (hemp : (tk, "") ∈ timeFormats ts (staleGameId (sampleSlice games n))) :
    (∀ p, p ∈ generateCandidates hf games n → p.index = i → p.timeFormat ≠ tk) ∧
    (∀ tf secret sf input pr,
      tf ∈ timeFormats ts (staleGameId (sampleSlice games n)) → tf.2 ≠ "" →
      secret ∈ commonSecrets → sf ∈ saltFormats →
      input ∈ testInputs tf.2 (sf.fmt secret) →
      firstMatch hf seed input = some pr →
      (⟨i, seed, tf.1, secret, sf, input, pr.1, pr.2⟩ : FoundPattern)
        ∈ generateCandidates hf games n) := by
  constructor
  · intro p hp hidx htk
    rcases mem_generateCandidates_elim hf games n p hp with
      ⟨i', ts', seed', tf, secret, sf, input, hget', htf', hne', _, _, _, hchk⟩
    rcases (mem_checkInput_iff hf i' seed' tf.1 secret sf input p).mp hchk with
      ⟨pr, _, hpe⟩
    subst hpe
    have hii : i' = i := hidx
    subst hii
    rw [hget] at hget'
    have hpair : (ts, seed) = (ts', seed') := Option.some.inj hget'
    have hts : ts' = ts := ((Prod.mk.injEq ts seed ts' seed').mp hpair).1.symm
    rw [hts] at htf'
    have htk1 : tf.1 = tk := htk
    have htf2 : (tk, tf.2) ∈ timeFormats ts (staleGameId (sampleSlice games n)) := by
      have hsplit : tf = (tf.1, tf.2) := rfl
      rw [hsplit, htk1] at htf'
      exact htf'
    have : tf.2 = "" :=
      fst_nodup_val_eq (timeFormats ts (staleGameId (sampleSlice games n)))
        (timeFormats_keys_nodup ts (staleGameId (sampleSlice games n)))
        tk tf.2 "" htf2 hemp
    exact hne' this
  · intro tf secret sf input pr htf hne hsec hsf hin hfm
    apply mem_generateCandidates_intro hf games n i ts seed tf secret sf input _
      hget htf hne hsec hsf hin
    rw [mem_checkInput_iff]
    exact ⟨pr, hfm, rfl⟩

/-- Witness for C5: the record `gI` has no `gameId`, so the stale
`game_id` encoding is empty; the epoch encoding of the same record is
still processed and yields its hypothesis. -/
theorem c5_empty_encoding_skipped_witness :
    (extractTS (sampleSlice [gI] 1))[0]? = some (dtW, "1700000000") ∧
    ("game_id", "") ∈ timeFormats dtW (staleGameId (sampleSlice [gI] 1)) ∧
    (⟨0, "1700000000", "epoch", "rugs.fun", sfPlain, "1700000000",
      "md5", "exact"⟩ : FoundPattern) ∈ generateCandidates hfId [gI] 1 := by
  refine ⟨by decide, by decide, ?_⟩
  have h := c5_empty_encoding_skipped hfId [gI] 1 0 dtW "1700000000" "game_id"
    (by decide) (by decide)
  exact h.2 ("epoch", "1700000000") "rugs.fun" sfPlain "1700000000"
    ("md5", "exact") (by decide) (by decide) (by decide) (by decide)
    (by decide) (by decide)

/-- Claim C3 evaluated at the failing input: the hypothesis `pX` is
generated from `gX` with the time-plus-salt ordering; the spec-required
re-application of `pX`'s own match condition accepts the validation
record `gV`, but the source validator re-derives the ordering from the
STORED input string by searching for the literal markers `'TimeSecret'`
and `'SecretTime'` — which in the generator were only comments — and so
falls through to hashing the salt alone, counting 0 matches out of 1
valid record instead of 1 out of 1. -/
theorem c3_code_bug_eval :
    pX ∈ generateCandidates hfMark [gX] 1 ∧
    specMatchCondition hfMark InputOrdering.timeSalt pX gV = true ∧
    (validateGroup hfMark keyX [pX] [gV]).matchCount = 0 ∧
    (validateGroup hfMark keyX [pX] [gV]).total = 1 ∧
    (validateGroup hfMark keyX [pX] [gV]).successRate = 0 := by
  have hval : validateGroup hfMark keyX [pX] [gV] = mkValidationResult 0 1 := by
    rw [validateGroup_spec]
    rw [show List.countP (vMatched hfMark keyX [pX]) [gV] = 0 from by decide]
    rw [show List.countP vPresent [gV] = 1 from by decide]
  refine ⟨?_, by decide, ?_, ?_, ?_⟩
  case refine_2 => rw [hval]; rfl
  case refine_3 => rw [hval]; rfl
  case refine_4 =>
    rw [hval]
    unfold mkValidationResult
    simp
  apply mem_generateCandidates_intro hfMark [gX] 1 0 dtW
    "h20240101rugs.fun_salt" ("date", "20240101") "rugs.fun" sfSalt
    "20240101rugs.fun_salt" _
    (by decide) (by decide) (by decide) (by decide) (by decide) (by decide)
  rw [mem_checkInput_iff]
  exact ⟨("md5", "exact"), by decide, by decide⟩

/-- Claim C4 counterexample: with an empty validation slice the
denominator is 0 and the source reports the success rate as the NUMBER
zero (the `if total > 0 else 0` guard), not as an undefined value. -/
theorem c4_counterexample :
    (validateGroup hfMark keyX [pX] []).total = 0 ∧
    (validateGroup hfMark keyX [pX] []).successRate = 0 :=
  ⟨rfl, by decide⟩

/-- Claim C4 (amended): whenever no validation record has both required
fields, the validator reports total 0 and success rate 0 — the guarded
else branch — rather than raising or reporting an undefined value. -/
theorem c4_zero_denominator_reports_zero (hf : HashFns) (k : PatternKey)
    (ps : List FoundPattern) (vg : List GameRecord)
    (h : ∀ g ∈ vg, vPresent g = false) :
    (validateGroup hf k ps vg).total = 0 ∧
    (validateGroup hf k ps vg).successRate = 0 := by
  have ht : vg.countP vPresent = 0 :=
    List.countP_eq_zero.mpr (fun g hg => by rw [h g hg]; simp)
  rw [validateGroup_spec, ht]
  unfold mkValidationResult
  exact ⟨rfl, by simp⟩

/-- Witness for C4 (amended) at a slice whose only record lacks the
seed. -/
theorem c4_zero_denominator_reports_zero_witness :
    (validateGroup hfMark keyX [] [gNoSeed]).total = 0 ∧
    (validateGroup hfMark keyX [] [gNoSeed]).successRate = 0 :=
  c4_zero_denominator_reports_zero hfMark keyX [] [gNoSeed] (by decide)

/-- Claim C10: the validator counts every record with both fields into
the denominator before computing the time encoding, and counts into the
numerator exactly the present records with a non-empty time value and a
passing pattern re-check; a present record whose time value is empty can
never be matched, so it lowers the rate instead of being excluded. -/
theorem c10_denominator_counts_empty_encodings (hf : HashFns)
    (k : PatternKey) (ps : List FoundPattern) (vg : List GameRecord) :
    (validateGroup hf k ps vg).total = vg.countP vPresent ∧
    (validateGroup hf k ps vg).matchCount = vg.countP (vMatched hf k ps) ∧
    (∀ g dt, g.timestamp = some dt → g.serverSeed.isSome = true →
      valTimeVal k.timeFormat dt g = "" → vMatched hf k ps g = false) := by
  refine ⟨by rw [validateGroup_spec]; rfl, by rw [validateGroup_spec]; rfl, ?_⟩
  intro g dt hts hss htv
  unfold vMatched
  rw [hts]
  cases hsd : g.serverSeed with
  | none => simp [hsd] at hss
  | some seed => simp [htv]

/-- Witness for C10: the record `gI` has both fields but no `gameId`, so
under the `game_id` key it is counted in the denominator and cannot be
matched. -/
theorem c10_denominator_counts_empty_encodings_witness :
    (validateGroup hfId kG [] [gI]).total = 1 ∧
    (validateGroup hfId kG [] [gI]).matchCount = 0 ∧
    vMatched hfId kG [] gI = false := by
  have h := c10_denominator_counts_empty_encodings hfId kG [] [gI]
  refine ⟨?_, ?_, ?_⟩
  · rw [h.1]
    decide
  · rw [h.2.1]
    decide
  · exact h.2.2 gI dtW rfl rfl (by decide)

/-- Claim C9 counterexample: `load_data` aborts at the first malformed
line, so the later well-formed line `"g2"` parses yet its record is not
loaded. -/
theorem c9_counterexample :
    parseDemo "g2" = some "g2" ∧
    ¬ "g2" ∈ (loadData parseDemo ["g1", "bad", "g2"]).1 ∧
    (loadData parseDemo ["g1", "bad", "g2"]).2 = false :=
  ⟨rfl, by decide, rfl⟩

/-- Claim C9 (amended): `analysis_tools.load_collected_data` skips
exactly the malformed lines — it loads precisely the records of the
parsable lines in order — while `seed_analysis_code.load_data` stops at
the first malformed line, keeping only the records parsed before it and
reporting failure. -/
theorem c9_loader_characterization :
    (∀ (parse : String → Option GameRecord) (lines : List String),
      loadCollectedData parse lines = lines.filterMap parse) ∧
    (∀ (parse : String → Option GameRecord) (lines : List String),
      (loadData parse lines).1 =
        (lines.takeWhile (fun l => (parse l).isSome)).filterMap parse ∧
      (loadData parse lines).2 = lines.all (fun l => (parse l).isSome)) := by
  constructor
  · intro parse lines
    induction lines with
    | nil => rfl
    | cons l ls ih =>
      rw [List.filterMap_cons]
      cases h : parse l with
      | none => simp [loadCollectedData, h, ih]
      | some g => simp [loadCollectedData, h, ih]
  · intro parse lines
    induction lines with
    | nil => exact ⟨rfl, rfl⟩
    | cons l ls ih =>
      cases h : parse l with
      | none =>
        refine ⟨?_, ?_⟩
        · simp [loadData, h, List.takeWhile_cons]
        · simp [loadData, h]
      | some g =>
        refine ⟨?_, ?_⟩
        · simp [loadData, h, List.takeWhile_cons, List.filterMap_cons, ih.1]
        · simp [loadData, h, ih.2]

end SeedAnalysis
